import Mathlib

/-!
Verification development for the pyModbusTCP library (client + server for
Modbus/TCP). The Lean definitions below are a shallow embedding of the
Python source: bytes are `Nat` values (< 256 where it matters), byte
strings are `List Nat`, Python `None` is `Option.none`, Python exceptions
become explicit error constructors, and in-place mutation of the data-bank
lists becomes explicit state passing (the function returns the final list).
-/

namespace PyModbusTCP

/-! ## Constants (from pyModbusTCP/constants.py) -/

def READ_COILS : Nat := 0x01
def WRITE_MULTIPLE_REGISTERS : Nat := 0x10
def WRITE_READ_MULTIPLE_REGISTERS : Nat := 0x17
def EXP_NONE : Nat := 0x00
def EXP_ILLEGAL_FUNCTION : Nat := 0x01
def EXP_DATA_ADDRESS : Nat := 0x02
def EXP_DATA_VALUE : Nat := 0x03
def MB_NO_ERR : Nat := 0
def MB_RECV_ERR : Nat := 4
def MB_EXCEPT_ERR : Nat := 7

/-! ## Byte helpers

`be16` decodes a big-endian 16-bit value from two bytes, as
`struct.unpack('>H', ..)` does; `be16bytes` encodes one (valid for
values `<= 0xffff`, which every call site checks, as `struct.pack('>H', ..)`
raises `struct.error` outside that range). -/

def be16 (hi lo : Nat) : Nat := 256 * hi + lo

def be16bytes (v : Nat) : List Nat := [v / 256, v % 256]

/-! ## DataBank (server.py, class DataBank)

The four spaces are plain Lean lists; `coils_size` etc. of the Python
object are the list lengths. Addresses arrive as Python ints, so they are
modelled as `Int` (the code explicitly tests `address >= 0`). -/

structure DataBank where
  coils : List Bool
  d_inputs : List Bool
  h_regs : List Nat
  i_regs : List Nat
deriving Repr, DecidableEq

/-- `int(w) & 0xffff` on a Python int `w` (negative values wrap, as
Python's `&` with a positive mask always yields the non-negative rest). -/
def maskWord (w : Int) : Nat := (w % 65536).toNat

/-- The write loop shared by `set_coils` / `set_holding_registers` /
`set_input_registers`: walk the value list, and at each offset compare the
current stored element with the incoming value; when they differ, record
the change `(address, old, new)` and store the new value. The loop is only
entered after the bounds check, so every index hit is in range (the `getD`
default `d` is never read). -/
def writeLoop {α : Type} [DecidableEq α] (d : α) :
    List α → Nat → List α → List α × List (Nat × α × α)
  | cur, _, [] => (cur, [])
  | cur, a, v :: vs =>
    if cur.getD a d ≠ v then
      let r := writeLoop d (cur.set a v) (a + 1) vs
      (r.1, (a, cur.getD a d, v) :: r.2)
    else
      writeLoop d cur (a + 1) vs

/-- `DataBank.set_coils(address, bit_list, srv_info)` (server.py lines
126-158). Result: the Python return value (`True` or `None`), the final
state of the data bank, and the list of `(address, from_value, to_value)`
notifications delivered to `on_coils_change` after the lock is released
(empty when `srv_info` is not supplied). The bounds check happens before
any element is modified, so on failure the bank is returned untouched. -/
def DataBank.set_coils (db : DataBank) (address : Int) (bit_list : List Bool)
    (srv_info : Bool) :
    Option Bool × DataBank × List (Nat × Bool × Bool) :=
  if 0 ≤ address ∧ address + bit_list.length ≤ db.coils.length then
    let r := writeLoop false db.coils address.toNat bit_list
    (some true, { db with coils := r.1 }, if srv_info then r.2 else [])
  else
    (none, db, [])

/-- `DataBank.set_holding_registers(address, word_list, srv_info)`
(server.py lines 220-252). Incoming words are first masked with `0xffff`;
the rest mirrors `set_coils`, notifying `on_holding_registers_change`. -/
def DataBank.set_holding_registers (db : DataBank) (address : Int)
    (word_list : List Int) (srv_info : Bool) :
    Option Bool × DataBank × List (Nat × Nat × Nat) :=
  let masked := word_list.map maskWord
  if 0 ≤ address ∧ address + masked.length ≤ db.h_regs.length then
    let r := writeLoop 0 db.h_regs address.toNat masked
    (some true, { db with h_regs := r.1 }, if srv_info then r.2 else [])
  else
    (none, db, [])

/-- `DataBank.get_coils(address, number)` (server.py lines 107-124): the
bounds check is against the coils list, and the Python slice
`self._coils[address : number + address]` is `drop`/`take`. -/
def DataBank.get_coils (db : DataBank) (address : Int) (number : Nat) :
    Option (List Bool) :=
  if 0 ≤ address ∧ address + number ≤ db.coils.length then
    some ((db.coils.drop address.toNat).take number)
  else
    none

/-- `DataBank.get_discrete_inputs(address, number)` (server.py lines
160-177). NOTE: the source tests `address + number <= len(self._coils)` -
the COILS list - and then slices `self._d_inputs`; the embedding keeps
that check verbatim. A Python slice never raises, it truncates, hence the
plain `drop`/`take`. -/
def DataBank.get_discrete_inputs (db : DataBank) (address : Int) (number : Nat) :
    Option (List Bool) :=
  if 0 ≤ address ∧ address + number ≤ db.coils.length then
    some ((db.d_inputs.drop address.toNat).take number)
  else
    none

/-- Outcome of `DataBank.set_discrete_inputs`: normal return `True`,
address-error return `None`, or an uncaught Python `IndexError` from the
assignment `self._d_inputs[address + offset] = b_value`. -/
inductive SetBitsResult
  | ok (d_inputs : List Bool)
  | addrError
  | indexError
deriving Repr, DecidableEq

/-- The assignment loop of `set_discrete_inputs`: Python list item
assignment raises `IndexError` when the index is out of range. -/
def writeBitsStrict : List Bool → Nat → List Bool → Option (List Bool)
  | cur, _, [] => some cur
  | cur, a, v :: vs =>
    if a < cur.length then writeBitsStrict (cur.set a v) (a + 1) vs
    else none

/-- `DataBank.set_discrete_inputs(address, bit_list)` (server.py lines
179-199). NOTE: as for the read, the source's bounds check is
`address + len(bit_list) <= len(self._coils)` - the COILS list - while the
assignments target `self._d_inputs`. -/
def DataBank.set_discrete_inputs (db : DataBank) (address : Int)
    (bit_list : List Bool) : SetBitsResult :=
  if 0 ≤ address ∧ address + bit_list.length ≤ db.coils.length then
    match writeBitsStrict db.d_inputs address.toNat bit_list with
    | some l => .ok l
    | none => .indexError
  else
    .addrError

/-- The assignment loop of `set_discrete_inputs` again, this time keeping
the state: the Python loop mutates `self._d_inputs` one element at a
time, so when the `IndexError` escapes, the writes already done persist.
Result: the list as the loop leaves it, and whether the `IndexError` was
raised. -/
def writeBitsPartial : List Bool → Nat → List Bool → List Bool × Bool
  | cur, _, [] => (cur, false)
  | cur, a, v :: vs =>
    if a < cur.length then writeBitsPartial (cur.set a v) (a + 1) vs
    else (cur, true)

/-- `DataBank.set_discrete_inputs(address, bit_list)` (server.py lines
179-199) once more, now also returning the discrete-inputs list as the
call leaves it: unchanged on the address-error return, partially written
when the `IndexError` escapes mid-loop. The lemma
`set_discrete_inputs_run_fst` below proves this embedding consistent
with `set_discrete_inputs`. -/
def DataBank.set_discrete_inputs_run (db : DataBank) (address : Int)
    (bit_list : List Bool) : SetBitsResult × List Bool :=
  if 0 ≤ address ∧ address + bit_list.length ≤ db.coils.length then
    match writeBitsPartial db.d_inputs address.toNat bit_list with
    | (l, false) => (.ok l, l)
    | (l, true) => (.indexError, l)
  else
    (.addrError, db.d_inputs)

/-- `DataBank.get_holding_registers(address, number)` (server.py lines
201-218): bounds check against the holding-registers list itself. -/
def DataBank.get_holding_registers (db : DataBank) (address : Int) (number : Nat) :
    Option (List Nat) :=
  if 0 ≤ address ∧ address + number ≤ db.h_regs.length then
    some ((db.h_regs.drop address.toNat).take number)
  else
    none

/-! ## Server framing (server.py, ModbusServer.MBAP / Frame / PDU / SessionData) -/

structure MBAP where
  transaction_id : Nat
  protocol_id : Nat
  length : Nat
  unit_id : Nat
deriving Repr, DecidableEq

/-- `MBAP.raw` getter: `struct.pack('>HHHB', ...)`; `struct.error` (wrapped
in `DataFormatError`) when a field exceeds its width, hence the `Option`. -/
def MBAP.raw (m : MBAP) : Option (List Nat) :=
  if m.transaction_id ≤ 0xffff ∧ m.protocol_id ≤ 0xffff ∧ m.length ≤ 0xffff ∧
      m.unit_id ≤ 0xff then
    some (be16bytes m.transaction_id ++ be16bytes m.protocol_id ++
          be16bytes m.length ++ [m.unit_id])
  else
    none

/-- The `MBAP.raw` setter (server.py lines 715-727): length check, then
`struct.unpack('>HHHB', ...)`, then the protocol-id and length
consistency checks. The error string is the `DataFormatError` message. -/
def mbap_decode (value : List Nat) : Except String MBAP :=
  if ¬(value ≠ [] ∧ value.length = 7) then
    .error "MBAP must have a length of 7 bytes"
  else
    let m : MBAP := ⟨be16 (value.getD 0 0) (value.getD 1 0),
                     be16 (value.getD 2 0) (value.getD 3 0),
                     be16 (value.getD 4 0) (value.getD 5 0),
                     value.getD 6 0⟩
    if m.protocol_id ≠ 0 then
      .error "MBAP protocol ID must be 0"
    else if ¬(2 < m.length ∧ m.length < 256) then
      .error "MBAP length must be between 2 and 256"
    else
      .ok m

structure PDU where
  raw : List Nat
deriving Repr, DecidableEq

/-- `PDU.is_valid` (server.py lines 756-759): the property's body is
literally `return self.__len__() < 2`. -/
def PDU.is_valid (p : PDU) : Bool := decide (p.raw.length < 2)

structure Frame where
  mbap : MBAP
  pdu : List Nat
deriving Repr, DecidableEq

/-- `Frame.raw` (server.py lines 691-694): set `mbap.length` to
`len(pdu) + 1`, then emit `mbap.raw + pdu.raw`. -/
def Frame.raw (f : Frame) : Option (List Nat) :=
  match MBAP.raw { f.mbap with length := f.pdu.length + 1 } with
  | some m => some (m ++ f.pdu)
  | none => none

/-- `SessionData.set_response_mbap` (server.py lines 680-683): copy the
request's transaction id, protocol id and unit id into the response MBAP
(the length field is left for `Frame.raw` to fill). -/
def set_response_mbap (request response : Frame) : Frame :=
  { response with
    mbap := { response.mbap with
      transaction_id := request.mbap.transaction_id,
      protocol_id := request.mbap.protocol_id,
      unit_id := request.mbap.unit_id } }

/-! ## Write/Read Multiple Registers, 0x17
(server.py, ModbusServer._write_read_multiple_registers) -/

/-- Field projections of the 0x17 request PDU, as decoded by
`recv_pdu.unpack('>HHHHB', from_byte=1, to_byte=10)`. -/
def wrmrReadStart (raw : List Nat) : Nat := be16 (raw.getD 1 0) (raw.getD 2 0)

def wrmrReadQty (raw : List Nat) : Nat := be16 (raw.getD 3 0) (raw.getD 4 0)

def wrmrWriteStart (raw : List Nat) : Nat := be16 (raw.getD 5 0) (raw.getD 6 0)

def wrmrWriteQty (raw : List Nat) : Nat := be16 (raw.getD 7 0) (raw.getD 8 0)

def wrmrByteCount (raw : List Nat) : Nat := raw.getD 9 0

/-- The register values carried by the 0x17 request: `regs_l[i]` is
`unpack('>H', raw[i*2+10 : i*2+12])`. -/
def wrmrWriteRegs (raw : List Nat) : List Nat :=
  (List.range (wrmrWriteQty raw)).map
    (fun i => be16 (raw.getD (2 * i + 10) 0) (raw.getD (2 * i + 11) 0))

/-- Where `_write_read_multiple_registers` goes after decoding and
validating the request: attempt the write (then read and answer), or
build an exception response, or abort the session on a decode error. -/
inductive WrmrOutcome
  | decodeError
  | reject (exp_code : Nat)
  | writeAttempted (write_addr : Nat) (regs : List Nat) (read_addr read_qty : Nat)
deriving Repr, DecidableEq

/-- The decode-and-validate stage of
`ModbusServer._write_read_multiple_registers` (server.py lines 1127-1171):
`unpack` needs `raw[1:10]` to hold exactly 9 bytes; the four ok-flags are
`0x0001 <= write_quantity_regs <= 0x007B`,
`byte_count == write_quantity_regs * 2`,
`len(recv_pdu.raw[10:]) >= byte_count`, and
`0x0001 <= read_quantity_regs <= 0x007B`. All four must hold for the data
handler write to be attempted; otherwise the response is the
`EXP_DATA_VALUE` exception. -/
def wrmr_validate (raw : List Nat) : WrmrOutcome :=
  if raw.length < 10 then .decodeError
  else if (1 ≤ wrmrWriteQty raw ∧ wrmrWriteQty raw ≤ 0x7B) ∧
      wrmrByteCount raw = wrmrWriteQty raw * 2 ∧
      wrmrByteCount raw ≤ (raw.drop 10).length ∧
      (1 ≤ wrmrReadQty raw ∧ wrmrReadQty raw ≤ 0x7B) then
    .writeAttempted (wrmrWriteStart raw) (wrmrWriteRegs raw)
      (wrmrReadStart raw) (wrmrReadQty raw)
  else
    .reject EXP_DATA_VALUE

/-- The acceptance condition exactly as the claim under scrutiny states
it: `1 <= read_qty <= 125`, `1 <= write_qty <= 121`,
`write_byte_count == 2*write_qty`, payload at least `write_byte_count`
bytes. (This definition follows the claim's words, for comparison with
`wrmr_validate`, which follows the source.) -/
def wrmrClaimAccept (raw : List Nat) : Prop :=
  1 ≤ wrmrReadQty raw ∧ wrmrReadQty raw ≤ 125 ∧
  1 ≤ wrmrWriteQty raw ∧ wrmrWriteQty raw ≤ 121 ∧
  wrmrByteCount raw = 2 * wrmrWriteQty raw ∧
  wrmrByteCount raw ≤ (raw.drop 10).length

instance (raw : List Nat) : Decidable (wrmrClaimAccept raw) := by
  unfold wrmrClaimAccept; infer_instance

/-- A concrete 0x17 request PDU: read_start 0, read_qty 125,
write_start 0, write_qty 1, byte_count 2, two payload bytes. -/
def wrmrCexPdu : List Nat := [0x17, 0, 0, 0, 125, 0, 0, 0, 1, 2, 0, 0]

/-! ## Device identification (server.py, DeviceIdentification and
ModbusServer._encapsulated_interface_transport) -/

/-- `DeviceIdentification`: the `_objs_d` dict, object id -> bytes. -/
structure DeviceIdentification where
  objs : Nat → Option (List Nat)

/-- `DeviceIdentification.items(start, end)` (server.py lines 619-626):
walk the ids from `start` to `stop` inclusive (Python
`range(start, end + 1)`), keeping `(id, value)` for the ids present in
the dict (a missing id raises `KeyError`, which the loop swallows). -/
def DeviceIdentification.items (dev : DeviceIdentification) (start stop : Nat) :
    List (Nat × List Nat) :=
  ((List.range (stop + 1 - start)).map (· + start)).filterMap
    (fun i => (dev.objs i).map (fun v => (i, v)))

/-- Outcome of the object-range selection inside
`_encapsulated_interface_transport`: serve a list of objects, or answer
with an exception. -/
inductive DeviceIdSelect
  | serve (objs : List (Nat × List Nat))
  | reject (exp_code : Nat)
deriving DecidableEq

/-- The read-code dispatch of
`ModbusServer._encapsulated_interface_transport` (server.py lines
1194-1214), for a server whose `device_id` is configured and a request
with MEI type 0x0E: code 1 serves `items(object_id, 0x02)`, code 2
`items(max(object_id, 0x03), 0x7f)`, code 3 `items(max(object_id, 0x80),
0xff)`, code 4 `items(object_id, object_id)`; any other code answers the
`EXP_DATA_VALUE` exception. -/
def deviceIdSelect (dev : DeviceIdentification) (code object_id : Nat) :
    DeviceIdSelect :=
  if code = 1 then .serve (dev.items object_id 0x2)
  else if code = 2 then .serve (dev.items (max object_id 0x03) 0x7f)
  else if code = 3 then .serve (dev.items (max object_id 0x80) 0xff)
  else if code = 4 then .serve (dev.items object_id object_id)
  else .reject EXP_DATA_VALUE

/-- The selection exactly as the claim under scrutiny states it: code 1
yields the basic range `[0x00..0x02]` (independently of `object_id`); the
other codes as in the source. (This definition follows the claim's words,
for comparison with `deviceIdSelect`, which follows the source.) -/
def deviceIdSelectClaim (dev : DeviceIdentification) (code object_id : Nat) :
    DeviceIdSelect :=
  if code = 1 then .serve (dev.items 0x00 0x2)
  else if code = 2 then .serve (dev.items (max object_id 0x03) 0x7f)
  else if code = 3 then .serve (dev.items (max object_id 0x80) 0xff)
  else if code = 4 then .serve (dev.items object_id object_id)
  else .reject EXP_DATA_VALUE

/-- A concrete device-id block holding the three mandatory objects
0x00..0x02 (each with a one-byte value). -/
def devIdCex : DeviceIdentification :=
  ⟨fun i => if i ≤ 2 then some [65] else none⟩

/-! ## Client (client.py, ModbusClient)

The client object's error fields; the socket and transaction counter are
not needed by the claims below. -/

structure ClientState where
  last_error : Nat
  last_except : Nat
deriving Repr, DecidableEq

/-- `ModbusClient._InternalError` and its two subclasses. -/
inductive InternalError
  | networkError (code : Nat) (message : String)
  | modbusExcept (code : Nat)
deriving Repr, DecidableEq

/-- `ModbusClient._req_except_handler` (client.py lines 922-932): a
network error stores its code in `last_error`; a modbus except stores
`MB_EXCEPT_ERR` in `last_error` and the exception code in `last_except`. -/
def req_except_handler (st : ClientState) : InternalError → ClientState
  | .networkError code _ => { st with last_error := code }
  | .modbusExcept code => { last_error := MB_EXCEPT_ERR, last_except := code }

/-- The body-decode part of `ModbusClient._recv_pdu` (client.py lines
869-882), applied to the received PDU bytes: first the global 2-byte
minimum, then the exception check on `rx_pdu[0]`, and only then the
per-request `min_len` check (the source comment says "keep this after
except checking"). -/
def recv_pdu (min_len : Nat) (rx_pdu : List Nat) : Except InternalError (List Nat) :=
  if rx_pdu.length < 2 then
    .error (.networkError MB_RECV_ERR "PDU length is too short")
  else if 0x80 ≤ rx_pdu.getD 0 0 then
    .error (.modbusExcept (rx_pdu.getD 1 0))
  else if rx_pdu.length < min_len then
    .error (.networkError MB_RECV_ERR "PDU length is too short for current request")
  else
    .ok rx_pdu

/-- What a client request function gives back to the caller: a value, a
failure return (`None` / `False` after `_req_except_handler` ran), or a
`ValueError` raised out of the call. -/
inductive CallResult (α : Type)
  | ok (v : α)
  | failure
  | valueError (msg : String)

def CallResult.isValueError {α : Type} : CallResult α → Bool
  | .valueError _ => true
  | _ => false

/-- `ModbusClient.read_coils(bit_addr, bit_nb)` (client.py lines 346-384).
The network is abstracted by `rx_pdu`, the response PDU the MBAP layer
delivers; the third component of the result is the list of request PDUs
sent on the wire. The three argument checks run before `_req_pdu`, which
first resets the last-error fields (`_req_init`) and then performs I/O. -/
def read_coils (st : ClientState) (bit_addr bit_nb : Int) (rx_pdu : List Nat) :
    CallResult (List Bool) × ClientState × List (List Nat) :=
  if ¬(0 ≤ bit_addr ∧ bit_addr ≤ 0xffff) then
    (.valueError "bit_addr out of range (valid from 0 to 65535)", st, [])
  else if ¬(1 ≤ bit_nb ∧ bit_nb ≤ 2000) then
    (.valueError "bit_nb out of range (valid from 1 to 2000)", st, [])
  else if 0x10000 < bit_addr + bit_nb then
    (.valueError "read after end of modbus address space", st, [])
  else
    let n := bit_nb.toNat
    let tx_pdu := READ_COILS :: (be16bytes bit_addr.toNat ++ be16bytes n)
    let st1 : ClientState := ⟨MB_NO_ERR, EXP_NONE⟩
    match recv_pdu 3 rx_pdu with
    | .error e => (.failure, req_except_handler st1 e, [tx_pdu])
    | .ok pdu =>
      let byte_count := pdu.getD 1 0
      let coils_part := pdu.drop 2
      if byte_count < (n + 7) / 8 ∨ byte_count ≠ coils_part.length then
        (.failure,
         req_except_handler st1 (.networkError MB_RECV_ERR "rx byte count mismatch"),
         [tx_pdu])
      else
        (.ok ((List.range n).map (fun i => (coils_part.getD (i / 8) 0).testBit (i % 8))),
         st1, [tx_pdu])

/-- `ModbusClient.write_multiple_registers(regs_addr, regs_value)`
(client.py lines 664-706). Same conventions as `read_coils`. The
per-register value check sits inside the `try` block in the source but
still runs before `_req_pdu`, so a bad register value raises `ValueError`
with no I/O done and the last-error fields untouched. -/
def write_multiple_registers (st : ClientState) (regs_addr : Int)
    (regs_value : List Int) (rx_pdu : List Nat) :
    CallResult Bool × ClientState × List (List Nat) :=
  if ¬(0 ≤ regs_addr ∧ regs_addr ≤ 0xffff) then
    (.valueError "regs_addr out of range (valid from 0 to 65535)", st, [])
  else if ¬(1 ≤ regs_value.length ∧ regs_value.length ≤ 123) then
    (.valueError "number of registers out of range (valid from 1 to 123)", st, [])
  else if 0x10000 < regs_addr + regs_value.length then
    (.valueError "write after end of modbus address space", st, [])
  else if ¬(∀ reg ∈ regs_value, 0 ≤ reg ∧ reg ≤ 0xffff) then
    (.valueError "regs_value list contains out of range values", st, [])
  else
    let regs_part := (regs_value.map (fun r => be16bytes r.toNat)).flatten
    let tx_pdu := [WRITE_MULTIPLE_REGISTERS] ++ be16bytes regs_addr.toNat ++
      be16bytes regs_value.length ++ [regs_part.length] ++ regs_part
    let st1 : ClientState := ⟨MB_NO_ERR, EXP_NONE⟩
    match recv_pdu 5 rx_pdu with
    | .error e => (.failure, req_except_handler st1 e, [tx_pdu])
    | .ok pdu =>
      (.ok (decide (be16 (pdu.getD 1 0) (pdu.getD 2 0) = regs_addr.toNat ∧
                    be16 (pdu.getD 3 0) (pdu.getD 4 0) = regs_value.length)),
       st1, [tx_pdu])

/-! ## Lemmas about the data-bank write loop -/

lemma getD_set_self {α : Type} (l : List α) (i : Nat) (v d : α) (h : i < l.length) :
    (l.set i v).getD i d = v := by
  rw [List.getD_eq_getD_get?, List.get?_set_eq_of_lt _ h]
  rfl

lemma getD_set_ne {α : Type} (l : List α) (i j : Nat) (v d : α) (h : i ≠ j) :
    (l.set i v).getD j d = l.getD j d := by
  rw [List.getD_eq_getD_get?, List.get?_set_ne _ _ h, ← List.getD_eq_getD_get?]

lemma writeLoop_length {α : Type} [DecidableEq α] (d : α) (vs : List α) :
    ∀ cur a, ((writeLoop d cur a vs).1).length = cur.length := by
  induction vs with
  | nil => intro cur a; simp [writeLoop]
  | cons v vs ih =>
    intro cur a
    by_cases h : cur.getD a d ≠ v
    · simp only [writeLoop, if_pos h]
      rw [ih, List.length_set]
    · simp only [writeLoop, if_neg h]
      exact ih cur (a + 1)

lemma writeLoop_getD {α : Type} [DecidableEq α] (d : α) (vs : List α) :
    ∀ cur a, a + vs.length ≤ cur.length → ∀ j,
      ((writeLoop d cur a vs).1).getD j d =
        if a ≤ j ∧ j < a + vs.length then vs.getD (j - a) d else cur.getD j d := by
  induction vs with
  | nil =>
    intro cur a _ j
    rw [writeLoop, if_neg (by simp only [List.length_nil]; omega)]
  | cons v vs ih =>
    intro cur a hlen j
    simp only [List.length_cons] at hlen
    have ha : a < cur.length := by omega
    by_cases h : cur.getD a d ≠ v
    · simp only [writeLoop, if_pos h]
      rw [ih (cur.set a v) (a + 1) (by rw [List.length_set]; omega) j]
      by_cases hj : j = a
      · subst hj
        rw [if_neg (by omega),
          if_pos (by simp only [List.length_cons]; omega),
          getD_set_self _ _ _ _ ha]
        simp only [Nat.sub_self, List.getD_cons_zero]
      · by_cases hj2 : a + 1 ≤ j ∧ j < a + 1 + vs.length
        · rw [if_pos hj2, if_pos (by simp only [List.length_cons]; omega)]
          have hsub : j - a = (j - (a + 1)) + 1 := by omega
          rw [hsub, List.getD_cons_succ]
        · rw [if_neg hj2, if_neg (by simp only [List.length_cons]; omega),
            getD_set_ne _ _ _ _ _ (Ne.symm hj)]
    · simp only [writeLoop, if_neg h]
      rw [ih cur (a + 1) (by omega) j]
      push_neg at h
      by_cases hj : j = a
      · subst hj
        rw [if_neg (by omega), if_pos (by simp only [List.length_cons]; omega)]
        simp only [Nat.sub_self, List.getD_cons_zero]
        exact h
      · by_cases hj2 : a + 1 ≤ j ∧ j < a + 1 + vs.length
        · rw [if_pos hj2, if_pos (by simp only [List.length_cons]; omega)]
          have hsub : j - a = (j - (a + 1)) + 1 := by omega
          rw [hsub, List.getD_cons_succ]
        · rw [if_neg hj2, if_neg (by simp only [List.length_cons]; omega)]

lemma writeLoop_changes {α : Type} [DecidableEq α] (d : α) (vs : List α) :
    ∀ cur a, a + vs.length ≤ cur.length →
      (writeLoop d cur a vs).2 =
        (List.range vs.length).filterMap (fun i =>
          if cur.getD (a + i) d ≠ vs.getD i d
          then some (a + i, cur.getD (a + i) d, vs.getD i d) else none) := by
  induction vs with
  | nil => intro cur a _; rw [writeLoop]; rfl
  | cons v vs ih =>
    intro cur a hlen
    simp only [List.length_cons] at hlen
    have ha : a < cur.length := by omega
    rw [List.length_cons, List.range_succ_eq_map]
    by_cases h : cur.getD a d ≠ v
    · have h0 : (if cur.getD (a + 0) d ≠ (v :: vs).getD 0 d
          then some (a + 0, cur.getD (a + 0) d, (v :: vs).getD 0 d) else none) =
          some (a, cur.getD a d, v) := by
        simp only [Nat.add_zero, List.getD_cons_zero, if_pos h]
      rw [List.filterMap_cons, h0, List.filterMap_map]
      simp only [writeLoop, if_pos h]
      rw [ih (cur.set a v) (a + 1) (by rw [List.length_set]; omega)]
      have hfun : (fun i => if (cur.set a v).getD (a + 1 + i) d ≠ vs.getD i d
            then some (a + 1 + i, (cur.set a v).getD (a + 1 + i) d, vs.getD i d) else none) =
          ((fun i => if cur.getD (a + i) d ≠ (v :: vs).getD i d
            then some (a + i, cur.getD (a + i) d, (v :: vs).getD i d) else none) ∘ Nat.succ) := by
        funext i
        simp only [Function.comp]
        rw [getD_set_ne _ _ _ _ _ (by omega)]
        have hadd : a + 1 + i = a + (i + 1) := by omega
        rw [hadd, List.getD_cons_succ]
      rw [hfun]
    · have h0 : (if cur.getD (a + 0) d ≠ (v :: vs).getD 0 d
          then some (a + 0, cur.getD (a + 0) d, (v :: vs).getD 0 d) else none) = none := by
        simp only [Nat.add_zero, List.getD_cons_zero, if_neg h]
      rw [List.filterMap_cons, h0, List.filterMap_map]
      simp only [writeLoop, if_neg h]
      rw [ih cur (a + 1) (by omega)]
      have hfun : (fun i => if cur.getD (a + 1 + i) d ≠ vs.getD i d
            then some (a + 1 + i, cur.getD (a + 1 + i) d, vs.getD i d) else none) =
          ((fun i => if cur.getD (a + i) d ≠ (v :: vs).getD i d
            then some (a + i, cur.getD (a + i) d, (v :: vs).getD i d) else none) ∘ Nat.succ) := by
        funext i
        simp only [Function.comp]
        have hadd : a + 1 + i = a + (i + 1) := by omega
        rw [hadd, List.getD_cons_succ]
      rw [hfun]


/-! ## Theorems: data bank claims -/

/-- A data bank whose discrete-inputs space (4 bits) is smaller than its
coils space (8 bits). -/
def dbCex : DataBank :=
  ⟨List.replicate 8 false, List.replicate 4 false, [], []⟩

/-- Claim C2: a read or write on a data-bank space succeeds exactly when
the range fits in THAT space. This holds for coils, holding registers and
input registers, but `get_discrete_inputs` / `set_discrete_inputs` check
the range against the COILS space: on a bank with 8 coils but only 4
discrete inputs, reading 4 discrete inputs from address 4 passes the
check and "succeeds" with an empty list instead of returning the
address-error `None`, and writing 1 bit at address 4 passes the check and
then crashes with an uncaught `IndexError` instead of returning `None`. -/
theorem claim_C2_code_bug_eval :
    dbCex.coils.length = 8 ∧ dbCex.d_inputs.length = 4 ∧
    dbCex.get_discrete_inputs 4 4 = some [] ∧
    dbCex.set_discrete_inputs 4 [true] = .indexError := by
  decide

/-- For the coils and holding-registers spaces the all-or-nothing
property does hold: a range write whose bounds check fails returns the
address-error `None`, leaves every element of the space as it was, and
emits no change notifications (the check runs under the space lock
before the write loop, so here the `else` branch returns the incoming
bank unchanged). Supporting lemma for claim C4, which as a whole fails
on the discrete-inputs space, see `claim_C4_code_bug_eval`. -/
lemma set_writes_atomic_on_bounds_failure (db : DataBank) (ab aw : Int) (bits : List Bool)
    (words : List Int) (sb sw : Bool)
    (hb : ¬(0 ≤ ab ∧ ab + bits.length ≤ db.coils.length))
    (hw : ¬(0 ≤ aw ∧ aw + words.length ≤ db.h_regs.length)) :
    (db.set_coils ab bits sb).1 = none ∧
    (∀ i, ((db.set_coils ab bits sb).2.1).coils.getD i false = db.coils.getD i false) ∧
    (db.set_coils ab bits sb).2.2 = [] ∧
    (db.set_holding_registers aw words sw).1 = none ∧
    (∀ i, ((db.set_holding_registers aw words sw).2.1).h_regs.getD i 0 =
      db.h_regs.getD i 0) ∧
    (db.set_holding_registers aw words sw).2.2 = [] := by
  have hw2 : ¬(0 ≤ aw ∧ aw + (words.map maskWord).length ≤ db.h_regs.length) := by
    rw [List.length_map]; exact hw
  have ec : db.set_coils ab bits sb = (none, db, []) := by
    rw [DataBank.set_coils, if_neg hb]
  have eh : db.set_holding_registers aw words sw = (none, db, []) := by
    simp only [DataBank.set_holding_registers]
    rw [if_neg hw2]
  exact ⟨by rw [ec], fun i => by rw [ec], by rw [ec],
    by rw [eh], fun i => by rw [eh], by rw [eh]⟩

lemma writeBitsStrict_eq_partial (vs : List Bool) : ∀ cur a,
    writeBitsStrict cur a vs =
      if (writeBitsPartial cur a vs).2 then none
      else some (writeBitsPartial cur a vs).1 := by
  induction vs with
  | nil => intro cur a; rfl
  | cons v vs ih =>
    intro cur a
    by_cases h : a < cur.length
    · simp only [writeBitsStrict, writeBitsPartial, if_pos h]
      exact ih (cur.set a v) (a + 1)
    · simp only [writeBitsStrict, writeBitsPartial, if_neg h]
      rfl

/-- The state-tracking embedding of `set_discrete_inputs` agrees with the
outcome-only one on every input: the two definitions embed one source
function. -/
lemma set_discrete_inputs_run_fst (db : DataBank) (address : Int)
    (bit_list : List Bool) :
    (db.set_discrete_inputs_run address bit_list).1 =
      db.set_discrete_inputs address bit_list := by
  simp only [DataBank.set_discrete_inputs_run, DataBank.set_discrete_inputs,
    writeBitsStrict_eq_partial]
  by_cases h : 0 ≤ address ∧ address + bit_list.length ≤ db.coils.length
  · rw [if_pos h, if_pos h]
    rcases hw : writeBitsPartial db.d_inputs address.toNat bit_list with ⟨l, b⟩
    cases b
    · rfl
    · rfl
  · rw [if_neg h, if_neg h]

/-- Claim C4 is false as stated: it asserts the all-or-nothing guarantee
for EVERY data-bank space, but `set_discrete_inputs` bounds-checks the
COILS length. On a bank with 8 coils and 4 discrete inputs, writing 3
bits at address 2 overruns the discrete-inputs space (2 + 3 > 4), so the
claim requires the address-error `None` with the space unchanged; the
source instead passes its (wrong) check, writes indices 2 and 3 in
place, and then raises an uncaught `IndexError` at index 4, leaving the
space partially modified with no address-error returned. The claim (and
the spec's per-space invariant, and the method's own list-or-None
docstring) states the intent; the check against the coils list is the
code's slip. -/
theorem claim_C4_code_bug_eval :
    dbCex.d_inputs = [false, false, false, false] ∧
    ¬((2 : Int) + ([true, true, true] : List Bool).length ≤ dbCex.d_inputs.length) ∧
    dbCex.set_discrete_inputs_run 2 [true, true, true] =
      (.indexError, [false, false, true, true]) ∧
    (dbCex.set_discrete_inputs_run 2 [true, true, true]).2 ≠ dbCex.d_inputs := by
  refine ⟨by decide, by decide, by decide, by decide⟩

/-- Claim C5: a successful multi-write with a server-info record notifies
exactly the positions whose value after the write differs from the value
before it, once per position, as `(address, old value, new value)` - for
coils via `on_coils_change` and for holding registers via
`on_holding_registers_change` - and the written range holds the new
values. The source collects the triples inside the locked loop and fires
the callbacks only after the `with` block; here the notification list is
part of the result computed from the final state, which encodes that
post-update ordering. A write that changes no element yields an empty
notification list. -/
theorem claim_C5 (db : DataBank) (ab aw : Int) (bits : List Bool) (words : List Int)
    (hb : 0 ≤ ab ∧ ab + bits.length ≤ db.coils.length)
    (hw : 0 ≤ aw ∧ aw + words.length ≤ db.h_regs.length) :
    (db.set_coils ab bits true).1 = some true ∧
    (∀ i, i < bits.length →
      ((db.set_coils ab bits true).2.1).coils.getD (ab.toNat + i) false = bits.getD i false) ∧
    (db.set_coils ab bits true).2.2 =
      (List.range bits.length).filterMap (fun i =>
        if ((db.set_coils ab bits true).2.1).coils.getD (ab.toNat + i) false ≠
            db.coils.getD (ab.toNat + i) false
        then some (ab.toNat + i, db.coils.getD (ab.toNat + i) false,
          ((db.set_coils ab bits true).2.1).coils.getD (ab.toNat + i) false)
        else none) ∧
    (db.set_holding_registers aw words true).1 = some true ∧
    (∀ i, i < words.length →
      ((db.set_holding_registers aw words true).2.1).h_regs.getD (aw.toNat + i) 0 =
        (words.map maskWord).getD i 0) ∧
    (db.set_holding_registers aw words true).2.2 =
      (List.range words.length).filterMap (fun i =>
        if ((db.set_holding_registers aw words true).2.1).h_regs.getD (aw.toNat + i) 0 ≠
            db.h_regs.getD (aw.toNat + i) 0
        then some (aw.toNat + i, db.h_regs.getD (aw.toNat + i) 0,
          ((db.set_holding_registers aw words true).2.1).h_regs.getD (aw.toNat + i) 0)
        else none) := by
  have hbN : ab.toNat + bits.length ≤ db.coils.length := by omega
  have hwN : aw.toNat + (words.map maskWord).length ≤ db.h_regs.length := by
    rw [List.length_map]; omega
  have hw2 : 0 ≤ aw ∧ aw + (words.map maskWord).length ≤ (db.h_regs.length : Int) := by
    rw [List.length_map]; exact_mod_cast hw
  have ec : db.set_coils ab bits true =
      (some true, { db with coils := (writeLoop false db.coils ab.toNat bits).1 },
        (writeLoop false db.coils ab.toNat bits).2) := by
    rw [DataBank.set_coils, if_pos hb]
    rfl
  have eh : db.set_holding_registers aw words true =
      (some true,
        { db with h_regs := (writeLoop 0 db.h_regs aw.toNat (words.map maskWord)).1 },
        (writeLoop 0 db.h_regs aw.toNat (words.map maskWord)).2) := by
    simp only [DataBank.set_holding_registers]
    rw [if_pos hw2, if_pos trivial]
  have hcget : ∀ i, i < bits.length →
      (writeLoop false db.coils ab.toNat bits).1.getD (ab.toNat + i) false =
        bits.getD i false := by
    intro i hi
    rw [writeLoop_getD false bits db.coils ab.toNat hbN, if_pos (by omega)]
    congr 1
    omega
  have hhget : ∀ i, i < (words.map maskWord).length →
      (writeLoop 0 db.h_regs aw.toNat (words.map maskWord)).1.getD (aw.toNat + i) 0 =
        (words.map maskWord).getD i 0 := by
    intro i hi
    rw [writeLoop_getD 0 (words.map maskWord) db.h_regs aw.toNat hwN, if_pos (by omega)]
    congr 1
    omega
  refine ⟨by rw [ec], ?_, ?_, by rw [eh], ?_, ?_⟩
  · intro i hi
    rw [ec]
    exact hcget i hi
  · rw [ec]
    simp only
    rw [writeLoop_changes false bits db.coils ab.toNat hbN]
    refine List.filterMap_congr ?_
    intro i hi
    rw [List.mem_range] at hi
    rw [hcget i hi]
    by_cases hne : db.coils.getD (ab.toNat + i) false = bits.getD i false
    · rw [hne]
    · rw [if_pos hne, if_pos (Ne.symm hne)]
  · intro i hi
    rw [eh]
    exact hhget i (by rw [List.length_map]; exact hi)
  · rw [eh]
    simp only
    rw [writeLoop_changes 0 (words.map maskWord) db.h_regs aw.toNat hwN]
    have hlm : words.length = (words.map maskWord).length := (List.length_map _ _).symm
    rw [hlm]
    refine List.filterMap_congr ?_
    intro i hi
    rw [List.mem_range] at hi
    rw [hhget i hi]
    by_cases hne : db.h_regs.getD (aw.toNat + i) 0 = (words.map maskWord).getD i 0
    · rw [hne]
    · rw [if_pos hne, if_pos (Ne.symm hne)]

theorem claim_C5_witness :
    (DataBank.set_coils ⟨[false, true], [], [7], []⟩ 0 [true, true] true).1 = some true :=
  (claim_C5 ⟨[false, true], [], [7], []⟩ 0 0 [true, true] [] (by decide) (by decide)).1



/-! ## Theorems: server 0x17 validation (claim C1) -/

/-- Claim C1 as stated is false: this concrete 0x17 request asks to read
125 registers and write 1 (with a consistent byte count and payload), so
by the claim it must be accepted, but the server's own bound on the read
quantity is 0x7B = 123 and it answers the `illegal_data_value`
exception. -/
theorem claim_C1_counterexample :
    wrmrClaimAccept wrmrCexPdu ∧
    wrmr_validate wrmrCexPdu = .reject EXP_DATA_VALUE := by
  constructor
  · decide
  · decide

/-- Claim C1 amended: the server accepts a Write/Read Multiple Registers
request (attempting the write with the decoded register list) exactly
when `1 <= read_qty <= 123`, `1 <= write_qty <= 123`,
`write_byte_count == 2*write_qty`, and the payload carries at least
`write_byte_count` bytes; any violation is answered with the
`illegal_data_value` exception. -/
theorem claim_C1_amended (raw : List Nat) (h : 10 ≤ raw.length) :
    wrmr_validate raw =
      if 1 ≤ wrmrReadQty raw ∧ wrmrReadQty raw ≤ 123 ∧
          1 ≤ wrmrWriteQty raw ∧ wrmrWriteQty raw ≤ 123 ∧
          wrmrByteCount raw = 2 * wrmrWriteQty raw ∧
          wrmrByteCount raw ≤ (raw.drop 10).length
      then .writeAttempted (wrmrWriteStart raw) (wrmrWriteRegs raw)
        (wrmrReadStart raw) (wrmrReadQty raw)
      else .reject EXP_DATA_VALUE := by
  simp only [wrmr_validate]
  rw [if_neg (by omega)]
  exact if_congr (by constructor <;> intro hh <;> omega) rfl rfl

theorem claim_C1_amended_witness :
    wrmr_validate wrmrCexPdu =
      if 1 ≤ wrmrReadQty wrmrCexPdu ∧ wrmrReadQty wrmrCexPdu ≤ 123 ∧
          1 ≤ wrmrWriteQty wrmrCexPdu ∧ wrmrWriteQty wrmrCexPdu ≤ 123 ∧
          wrmrByteCount wrmrCexPdu = 2 * wrmrWriteQty wrmrCexPdu ∧
          wrmrByteCount wrmrCexPdu ≤ (wrmrCexPdu.drop 10).length
      then .writeAttempted (wrmrWriteStart wrmrCexPdu) (wrmrWriteRegs wrmrCexPdu)
        (wrmrReadStart wrmrCexPdu) (wrmrReadQty wrmrCexPdu)
      else .reject EXP_DATA_VALUE :=
  claim_C1_amended wrmrCexPdu (by decide)

/-! ## Theorems: device identification (claim C3) -/

def DeviceIdSelect.servedObjs : DeviceIdSelect → List (Nat × List Nat)
  | .serve l => l
  | .reject _ => []

lemma mem_items (dev : DeviceIdentification) (s e i : Nat) (v : List Nat) :
    (i, v) ∈ dev.items s e ↔ s ≤ i ∧ i ≤ e ∧ dev.objs i = some v := by
  unfold DeviceIdentification.items
  simp only [List.mem_filterMap, List.mem_map, List.mem_range, Option.map_eq_some']
  constructor
  · rintro ⟨a, ⟨j, hj, rfl⟩, w, hw, heq⟩
    cases heq
    exact ⟨by omega, by omega, hw⟩
  · rintro ⟨h1, h2, h3⟩
    exact ⟨i, ⟨i - s, by omega, by omega⟩, v, h3, rfl⟩

/-- Claim C3 as stated is false on read code 1: for a device-id block
holding the three basic objects 0x00..0x02 and a request with code 1 and
object_id 2, the claim's basic range [0x00..0x02] would serve all three
objects, but the source starts the range at `object_id` and serves only
object 2. -/
theorem claim_C3_counterexample :
    deviceIdSelect devIdCex 1 2 = .serve [(2, [65])] ∧
    deviceIdSelectClaim devIdCex 1 2 = .serve [(0, [65]), (1, [65]), (2, [65])] := by
  constructor
  · decide
  · decide

/-- Claim C3 amended: with a configured device-id block and MEI type
0x0E, read code 1 serves the objects present in `[object_id..0x02]`
(not always the full basic range), code 2 those in
`[max(object_id, 0x03)..0x7F]`, code 3 those in
`[max(object_id, 0x80)..0xFF]`, code 4 the single object
`[object_id..object_id]`, and any other code is answered with the
`illegal_data_value` exception. -/
theorem claim_C3_amended (dev : DeviceIdentification) (object_id i : Nat)
    (v : List Nat) :
    ((i, v) ∈ (deviceIdSelect dev 1 object_id).servedObjs ↔
      object_id ≤ i ∧ i ≤ 0x2 ∧ dev.objs i = some v) ∧
    ((i, v) ∈ (deviceIdSelect dev 2 object_id).servedObjs ↔
      max object_id 0x03 ≤ i ∧ i ≤ 0x7f ∧ dev.objs i = some v) ∧
    ((i, v) ∈ (deviceIdSelect dev 3 object_id).servedObjs ↔
      max object_id 0x80 ≤ i ∧ i ≤ 0xff ∧ dev.objs i = some v) ∧
    ((i, v) ∈ (deviceIdSelect dev 4 object_id).servedObjs ↔
      i = object_id ∧ dev.objs i = some v) ∧
    (∀ code, code ≠ 1 → code ≠ 2 → code ≠ 3 → code ≠ 4 →
      deviceIdSelect dev code object_id = .reject EXP_DATA_VALUE) := by
  refine ⟨?_, ?_, ?_, ?_, ?_⟩
  · have hserved : (deviceIdSelect dev 1 object_id).servedObjs =
        dev.items object_id 0x2 := rfl
    rw [hserved, mem_items]
  · have hserved : (deviceIdSelect dev 2 object_id).servedObjs =
        dev.items (max object_id 0x03) 0x7f := rfl
    rw [hserved, mem_items]
  · have hserved : (deviceIdSelect dev 3 object_id).servedObjs =
        dev.items (max object_id 0x80) 0xff := rfl
    rw [hserved, mem_items]
  · have hserved : (deviceIdSelect dev 4 object_id).servedObjs =
        dev.items object_id object_id := rfl
    rw [hserved, mem_items]
    constructor
    · rintro ⟨h1, h2, h3⟩
      exact ⟨by omega, h3⟩
    · rintro ⟨rfl, h3⟩
      exact ⟨le_refl _, le_refl _, h3⟩
  · intro code h1 h2 h3 h4
    simp only [deviceIdSelect, if_neg h1, if_neg h2, if_neg h3, if_neg h4]



/-! ## Theorems: framing (claims C7, C8, C10) -/

/-- Claim C7: the response frame the server sends echoes the request's
transaction id, protocol id and unit id (copied by `set_response_mbap`
before the engine runs), and its MBAP length field is 1 + the number of
response PDU bytes (filled in by `Frame.raw` when the frame is
serialized). The hypotheses say the request fields fit their wire width -
true of every request that was decoded from 7 bytes - and that the
response PDU is short enough to pack. -/
theorem claim_C7 (request resp0 : Frame) (respPdu : List Nat)
    (h1 : request.mbap.transaction_id ≤ 0xffff)
    (h2 : request.mbap.protocol_id ≤ 0xffff)
    (h3 : request.mbap.unit_id ≤ 0xff)
    (h4 : respPdu.length + 1 ≤ 0xffff) :
    (set_response_mbap request { resp0 with pdu := respPdu }).raw =
      some (be16bytes request.mbap.transaction_id ++
            be16bytes request.mbap.protocol_id ++
            be16bytes (respPdu.length + 1) ++
            [request.mbap.unit_id] ++ respPdu) := by
  simp only [set_response_mbap, Frame.raw, MBAP.raw]
  rw [if_pos ⟨h1, h2, h4, h3⟩]

theorem claim_C7_witness :
    (set_response_mbap ⟨⟨1, 0, 6, 1⟩, [1, 2]⟩ ⟨⟨0, 0, 0, 0⟩, [3]⟩).raw =
      some [0, 1, 0, 0, 0, 2, 1, 3] :=
  claim_C7 ⟨⟨1, 0, 6, 1⟩, [1, 2]⟩ ⟨⟨0, 0, 0, 0⟩, []⟩ [3]
    (by decide) (by decide) (by decide) (by decide)

/-- Claim C8: decoding a byte string as an MBAP header fails (with a
`DataFormatError`) exactly when the input is not 7 bytes, or the decoded
protocol id is nonzero, or the decoded length is not strictly between 2
and 256; otherwise it succeeds with the four big-endian fields. -/
theorem claim_C8 (value : List Nat) :
    (mbap_decode value).toOption =
      if value.length = 7 ∧ be16 (value.getD 2 0) (value.getD 3 0) = 0 ∧
          2 < be16 (value.getD 4 0) (value.getD 5 0) ∧
          be16 (value.getD 4 0) (value.getD 5 0) < 256
      then some ⟨be16 (value.getD 0 0) (value.getD 1 0),
                 be16 (value.getD 2 0) (value.getD 3 0),
                 be16 (value.getD 4 0) (value.getD 5 0),
                 value.getD 6 0⟩
      else none := by
  simp only [mbap_decode]
  by_cases h7 : value.length = 7
  · have hne : value ≠ [] := by
      intro hh
      rw [hh] at h7
      simp at h7
    rw [if_neg (not_not.mpr ⟨hne, h7⟩)]
    by_cases hpid : be16 (value.getD 2 0) (value.getD 3 0) = 0
    · rw [if_neg (not_not.mpr hpid)]
      by_cases hlen : 2 < be16 (value.getD 4 0) (value.getD 5 0) ∧
          be16 (value.getD 4 0) (value.getD 5 0) < 256
      · rw [if_neg (not_not.mpr hlen), if_pos ⟨h7, hpid, hlen.1, hlen.2⟩]
        rfl
      · rw [if_pos hlen, if_neg (fun hh => hlen ⟨hh.2.2.1, hh.2.2.2⟩)]
        rfl
    · rw [if_pos hpid, if_neg (fun hh => hpid hh.2.1)]
      rfl
  · rw [if_pos (fun hh => h7 hh.2), if_neg (fun hh => h7 hh.1)]
    rfl

/-- Claim C10: `PDU.is_valid` returns `True` exactly when the raw PDU is
SHORTER than the 2-byte minimum - it is the negation of "has at least the
minimum legal length". -/
theorem claim_C10 (p : PDU) :
    (p.is_valid = true ↔ p.raw.length < 2) ∧
    p.is_valid = !decide (2 ≤ p.raw.length) := by
  constructor
  · simp [PDU.is_valid]
  · by_cases h : p.raw.length < 2
    · simp [PDU.is_valid, h, Nat.not_le.mpr h]
    · simp [PDU.is_valid, h, Nat.not_lt.mp h]



/-! ## Theorems: client claims (C6, C9) -/

lemma read_coils_invalid (st : ClientState) (rx : List Nat) (bit_addr bit_nb : Int)
    (h : ¬(0 ≤ bit_addr ∧ bit_addr ≤ 0xffff ∧ 1 ≤ bit_nb ∧ bit_nb ≤ 2000 ∧
      bit_addr + bit_nb ≤ 0x10000)) :
    (read_coils st bit_addr bit_nb rx).1.isValueError = true ∧
    (read_coils st bit_addr bit_nb rx).2.1 = st ∧
    (read_coils st bit_addr bit_nb rx).2.2 = [] := by
  simp only [read_coils]
  by_cases h1 : 0 ≤ bit_addr ∧ bit_addr ≤ 0xffff
  · rw [if_neg (not_not.mpr h1)]
    by_cases h2 : 1 ≤ bit_nb ∧ bit_nb ≤ 2000
    · rw [if_neg (not_not.mpr h2)]
      by_cases h3 : 0x10000 < bit_addr + bit_nb
      · rw [if_pos h3]
        exact ⟨rfl, rfl, rfl⟩
      · exact absurd ⟨h1.1, h1.2, h2.1, h2.2, by omega⟩ h
    · rw [if_pos h2]
      exact ⟨rfl, rfl, rfl⟩
  · rw [if_pos h1]
    exact ⟨rfl, rfl, rfl⟩

lemma write_multiple_registers_invalid (st : ClientState) (rx : List Nat)
    (regs_addr : Int) (regs_value : List Int)
    (h : ¬(0 ≤ regs_addr ∧ regs_addr ≤ 0xffff ∧
      1 ≤ regs_value.length ∧ regs_value.length ≤ 123 ∧
      regs_addr + regs_value.length ≤ 0x10000 ∧
      ∀ reg ∈ regs_value, 0 ≤ reg ∧ reg ≤ 0xffff)) :
    (write_multiple_registers st regs_addr regs_value rx).1.isValueError = true ∧
    (write_multiple_registers st regs_addr regs_value rx).2.1 = st ∧
    (write_multiple_registers st regs_addr regs_value rx).2.2 = [] := by
  simp only [write_multiple_registers]
  by_cases h1 : 0 ≤ regs_addr ∧ regs_addr ≤ 0xffff
  · rw [if_neg (not_not.mpr h1)]
    by_cases h2 : 1 ≤ regs_value.length ∧ regs_value.length ≤ 123
    · rw [if_neg (not_not.mpr h2)]
      by_cases h3 : 0x10000 < regs_addr + regs_value.length
      · rw [if_pos h3]
        exact ⟨rfl, rfl, rfl⟩
      · rw [if_neg h3]
        by_cases h4 : ∀ reg ∈ regs_value, 0 ≤ reg ∧ reg ≤ 0xffff
        · exact absurd ⟨h1.1, h1.2, h2.1, h2.2, by omega, h4⟩ h
        · rw [if_pos h4]
          exact ⟨rfl, rfl, rfl⟩
    · rw [if_pos h2]
      exact ⟨rfl, rfl, rfl⟩
  · rw [if_pos h1]
    exact ⟨rfl, rfl, rfl⟩

/-- Claim C6: a client request whose arguments violate the documented
constraints (shown here on `read_coils` and `write_multiple_registers`,
the functions the claim cites) raises `ValueError` before any PDU is sent
(the I/O trace is empty) and leaves `last_error` / `last_except` exactly
as they were: the reset in `_req_init` and all I/O happen only inside
`_req_pdu`, which every validation precedes. -/
theorem claim_C6 (st : ClientState) (rx : List Nat)
    (bit_addr bit_nb regs_addr : Int) (regs_value : List Int)
    (hc : ¬(0 ≤ bit_addr ∧ bit_addr ≤ 0xffff ∧ 1 ≤ bit_nb ∧ bit_nb ≤ 2000 ∧
      bit_addr + bit_nb ≤ 0x10000))
    (hr : ¬(0 ≤ regs_addr ∧ regs_addr ≤ 0xffff ∧
      1 ≤ regs_value.length ∧ regs_value.length ≤ 123 ∧
      regs_addr + regs_value.length ≤ 0x10000 ∧
      ∀ reg ∈ regs_value, 0 ≤ reg ∧ reg ≤ 0xffff)) :
    (read_coils st bit_addr bit_nb rx).1.isValueError = true ∧
    (read_coils st bit_addr bit_nb rx).2.1 = st ∧
    (read_coils st bit_addr bit_nb rx).2.2 = [] ∧
    (write_multiple_registers st regs_addr regs_value rx).1.isValueError = true ∧
    (write_multiple_registers st regs_addr regs_value rx).2.1 = st ∧
    (write_multiple_registers st regs_addr regs_value rx).2.2 = [] := by
  obtain ⟨a1, a2, a3⟩ := read_coils_invalid st rx bit_addr bit_nb hc
  obtain ⟨b1, b2, b3⟩ := write_multiple_registers_invalid st rx regs_addr regs_value hr
  exact ⟨a1, a2, a3, b1, b2, b3⟩

theorem claim_C6_witness :
    (read_coils ⟨3, 4⟩ 70000 1 []).1.isValueError = true ∧
    (read_coils ⟨3, 4⟩ 70000 1 []).2.1 = (⟨3, 4⟩ : ClientState) ∧
    (read_coils ⟨3, 4⟩ 70000 1 []).2.2 = [] ∧
    (write_multiple_registers ⟨3, 4⟩ 0 [70000] []).1.isValueError = true ∧
    (write_multiple_registers ⟨3, 4⟩ 0 [70000] []).2.1 = (⟨3, 4⟩ : ClientState) ∧
    (write_multiple_registers ⟨3, 4⟩ 0 [70000] []).2.2 = [] :=
  claim_C6 ⟨3, 4⟩ [] 70000 1 0 [70000] (by decide) (by decide)

/-- Claim C9: when the received response PDU (already at least the global
2-byte minimum) starts with a byte >= 0x80, `_recv_pdu` raises the modbus
exception carrying the second PDU byte - whatever the per-request minimum
length `min_len` is, since that check comes after the exception check -
and the request function records `last_error = MB_EXCEPT_ERR`,
`last_except = pdu[1]` and returns failure (shown on `read_coils 0 1`). -/
theorem claim_C9 (rx_pdu : List Nat) (hlen : 2 ≤ rx_pdu.length)
    (hfc : 0x80 ≤ rx_pdu.getD 0 0) :
    (∀ min_len, recv_pdu min_len rx_pdu =
      .error (.modbusExcept (rx_pdu.getD 1 0))) ∧
    (∀ st, req_except_handler st (.modbusExcept (rx_pdu.getD 1 0)) =
      ⟨MB_EXCEPT_ERR, rx_pdu.getD 1 0⟩) ∧
    (∀ st : ClientState, (read_coils st 0 1 rx_pdu).1 = .failure ∧
      (read_coils st 0 1 rx_pdu).2.1 = ⟨MB_EXCEPT_ERR, rx_pdu.getD 1 0⟩) := by
  have hr : ∀ min_len, recv_pdu min_len rx_pdu =
      .error (.modbusExcept (rx_pdu.getD 1 0)) := by
    intro min_len
    simp only [recv_pdu]
    rw [if_neg (by omega), if_pos hfc]
  refine ⟨hr, fun st => rfl, fun st => ?_⟩
  have e : read_coils st 0 1 rx_pdu =
      (.failure, ⟨MB_EXCEPT_ERR, rx_pdu.getD 1 0⟩, [[READ_COILS, 0, 0, 0, 1]]) := by
    simp only [read_coils]
    rw [if_neg (not_not.mpr ⟨by norm_num, by norm_num⟩),
      if_neg (not_not.mpr ⟨by norm_num, by norm_num⟩),
      if_neg (by norm_num), hr 3]
    rfl
  rw [e]
  exact ⟨rfl, rfl⟩

theorem claim_C9_witness :
    (∀ min_len, recv_pdu min_len [0x83, 2] = .error (.modbusExcept 2)) ∧
    (∀ st, req_except_handler st (.modbusExcept 2) = ⟨MB_EXCEPT_ERR, 2⟩) ∧
    (∀ st : ClientState, (read_coils st 0 1 [0x83, 2]).1 = .failure ∧
      (read_coils st 0 1 [0x83, 2]).2.1 = ⟨MB_EXCEPT_ERR, 2⟩) :=
  claim_C9 [0x83, 2] (by decide) (by decide)


end PyModbusTCP
